import Mathlib

/-!
# SpotifyTop2018: CSV loading and the song store

A shallow embedding of `main.go`.

* Go strings are lists of characters (`GoString`).
* A Go panic is the `none` of an `Option` result.
* `float64` values are kept abstract: the type `F` of float values and the
  function `ParseFloat` (Go's `strconv.ParseFloat(s, 64)`) are parameters; what
  the store needs to know of them is the parameter `FloatOps`.
* `strconv.Atoi`, `strings.TrimSuffix`, `encoding/csv` and SQLite are library
  code outside the repository; they are modelled here from their documented
  behaviour, each under its Go name.
-/

namespace SpotifyTop2018

/-- A Go string, as the list of its characters. -/
abbrev GoString := List Char

/-! ## Library models: `strings` and `strconv` -/

/-- Go `strings.HasSuffix`: `len(s) >= len(suffix) && s[len(s)-len(suffix):] == suffix`. -/
def HasSuffix (s suffix : GoString) : Bool :=
  decide (suffix.length ≤ s.length) && (s.drop (s.length - suffix.length) == suffix)

/-- Go `strings.TrimSuffix`: `s` without the trailing `suffix`, or `s` itself
when it does not end in `suffix`. At most one copy of the suffix is removed. -/
def TrimSuffix (s suffix : GoString) : GoString :=
  if HasSuffix s suffix then s.take (s.length - suffix.length) else s

/-- Size in bits of Go's `int` (`strconv.IntSize`) on a 64-bit platform. -/
def intSize : Nat := 64

/-- Value of a decimal digit, `none` for any other character. -/
def digitVal (c : Char) : Option Nat :=
  if 48 ≤ c.toNat ∧ c.toNat ≤ 57 then some (c.toNat - 48) else none

/-- The digit loop of `strconv.ParseUint` in base 10: `n = n*10 + d` for every
character, a syntax error (`none`) at the first character that is no digit.
The accumulator is unbounded here; the range is checked by the caller. -/
def parseUintLoop : GoString → Nat → Option Nat
  | [], n => some n
  | c :: cs, n =>
    match digitVal c with
    | none => none
    | some d => parseUintLoop cs (n * 10 + d)

/-- Go `strconv.ParseUint(s, 10, _)` without the range check: the empty string is
a syntax error. -/
def ParseUint (s : GoString) : Option Nat :=
  match s with
  | [] => none
  | _ :: _ => parseUintLoop s 0

/-- Go `strconv.Atoi` (`ParseInt(s, 10, 0)` converted to `int`): an optional
sign `+` or `-`, then one or more decimal digits; the value must lie in
`[-2^(intSize-1), 2^(intSize-1) - 1]`. `none` stands for a non-nil error
(syntax or range). -/
def Atoi (s : GoString) : Option Int :=
  match s with
  | [] => none
  | c :: rest =>
    let neg : Bool := c == '-'
    let body : GoString := if c == '+' || c == '-' then rest else s
    match ParseUint body with
    | none => none
    | some un =>
      let cutoff : Nat := 2 ^ (intSize - 1)
      if !neg && decide (cutoff ≤ un) then none
      else if neg && decide (cutoff < un) then none
      else some (if neg then -(un : Int) else (un : Int))

/-- Go `strconv.Itoa`: the decimal text of an integer, a `-` sign in front of
the digits of a negative one. -/
def Itoa (n : Int) : GoString :=
  if n < 0 then '-' :: Nat.toDigits 10 n.natAbs else Nat.toDigits 10 n.toNat

/-! ## `main.go`: conversions -/

/-- Go `stringToInt` (main.go 43-50): trim one trailing `.0`, then `Atoi`;
panics (`none`) when `Atoi` reports an error. -/
def stringToInt (s : GoString) : Option Int :=
  let s := TrimSuffix s ".0".toList
  match Atoi s with
  | none => none
  | some i => some i

/-- Go `stringToFloat` (main.go 35-41): `strconv.ParseFloat(s, 64)`, given as
the parameter `ParseFloat`; panics (`none`) on an error. -/
def stringToFloat {F : Type} (ParseFloat : GoString → Option F) (s : GoString) : Option F :=
  match ParseFloat s with
  | none => none
  | some f => some f

/-! ## `main.go`: the record type and the row conversion -/

/-- Go `Song` (main.go 16-33); `F` is the type of `float64` values. -/
structure Song (F : Type) where
  id : GoString
  name : GoString
  artists : GoString
  danceability : F
  energy : F
  key : Int
  loudness : F
  mode : Int
  speechiness : F
  acousticness : F
  instrumentalness : F
  liveness : F
  valence : F
  tempo : F
  duration_ms : Int
  time_signature : Int
  deriving DecidableEq

/-- Go index expression `record[i]`: panics (`none`) when `i` is out of range. -/
def index (record : List GoString) (i : Nat) : Option GoString :=
  record[i]?

/-- The composite literal `Song{...}` of `parseSong` (main.go 89-106): the
sixteen field expressions are evaluated in order, and the first panic (an
index out of range or a conversion error) aborts the literal. -/
def songLiteral {F : Type} (ParseFloat : GoString → Option F) (record : List GoString) :
    Option (Song F) :=
  match index record 0 with
  | none => none
  | some id =>
  match index record 1 with
  | none => none
  | some name =>
  match index record 2 with
  | none => none
  | some artists =>
  match (index record 3).bind (stringToFloat ParseFloat) with
  | none => none
  | some danceability =>
  match (index record 4).bind (stringToFloat ParseFloat) with
  | none => none
  | some energy =>
  match (index record 5).bind stringToInt with
  | none => none
  | some key =>
  match (index record 6).bind (stringToFloat ParseFloat) with
  | none => none
  | some loudness =>
  match (index record 7).bind stringToInt with
  | none => none
  | some mode =>
  match (index record 8).bind (stringToFloat ParseFloat) with
  | none => none
  | some speechiness =>
  match (index record 9).bind (stringToFloat ParseFloat) with
  | none => none
  | some acousticness =>
  match (index record 10).bind (stringToFloat ParseFloat) with
  | none => none
  | some instrumentalness =>
  match (index record 11).bind (stringToFloat ParseFloat) with
  | none => none
  | some liveness =>
  match (index record 12).bind (stringToFloat ParseFloat) with
  | none => none
  | some valence =>
  match (index record 13).bind (stringToFloat ParseFloat) with
  | none => none
  | some tempo =>
  match (index record 14).bind stringToInt with
  | none => none
  | some duration_ms =>
  match (index record 15).bind stringToInt with
  | none => none
  | some time_signature =>
  some
    { id, name, artists, danceability, energy, key, loudness, mode, speechiness,
      acousticness, instrumentalness, liveness, valence, tempo, duration_ms,
      time_signature }

/-- The `for _, record := range records` loop of `parseSong` (main.go 88-108):
`songs` is the slice built so far; a panic in a row aborts the loop. -/
def parseSongLoop {F : Type} (ParseFloat : GoString → Option F) :
    List (List GoString) → List (Song F) → Option (List (Song F))
  | [], songs => some songs
  | record :: rest, songs =>
    match songLiteral ParseFloat record with
    | none => none
    | some song => parseSongLoop ParseFloat rest (songs ++ [song])

/-- Go `parseSong` (main.go 86-110); `none` is a panic. -/
def parseSong {F : Type} (ParseFloat : GoString → Option F) (records : List (List GoString)) :
    Option (List (Song F)) :=
  parseSongLoop ParseFloat records []

/-- A stand-in for `strconv.ParseFloat` at concrete inputs: it accepts the texts
`digits.digits` of at most ten characters (which the real function accepts
too) and gives the accepted text itself as the token of its value. -/
def decimalParseFloat (s : GoString) : Option GoString :=
  match s.dropWhile Char.isDigit with
  | '.' :: frac =>
    if s.length ≤ 10 ∧ (s.takeWhile Char.isDigit).length ≠ 0 ∧ frac.length ≠ 0 ∧
      frac.all Char.isDigit
    then some s else none
  | _ => none

/-! ## `main.go`: reading the CSV file -/

/-- The error value of `csv.Reader.Read`: `io.EOF` or any other error (a
grammar error, a field-count error, a failed read). -/
inductive ReadError where
  | EOF
  | other
  deriving DecidableEq

/-- One result `record, err` of `csv.Reader.Read`. A grammar or field-count
error comes with the fields read so far, a failed read with a nil record. -/
structure ReadResult where
  record : List GoString
  err : Option ReadError
  deriving DecidableEq

/-- A `csv.Reader` over a file, as the results of its successive `Read` calls:
`reader k` is what the call number `k` (from 0) returns. -/
abbrev CsvReader := Nat → ReadResult

/-- Go `csv.NewReader(file)` after `os.Open`: when the file could not be opened
`file` is nil, and every `Read` on it returns the error `os.ErrInvalid`,
together with a record of one empty field. -/
def NewReader (file : Option CsvReader) : CsvReader :=
  match file with
  | some reader => reader
  | none => fun _ => { record := [[]], err := some ReadError.other }

/-- The `for` loop of `parseCsv` (main.go 66-79), run for at most `fuel`
iterations from the read number `k`: it stops at `io.EOF`; any other error is
printed only, and the record is appended either way. `none`: the loop has not
ended within `fuel` iterations. -/
def readLoop (reader : CsvReader) : Nat → Nat → List (List GoString) → Option (List (List GoString))
  | 0, _, _ => none
  | fuel + 1, k, records =>
    if (reader k).err = some ReadError.EOF then some records
    else readLoop reader fuel (k + 1) (records ++ [(reader k).record])

/-- How a run ends: with a value, with a panic, or not within the fuel. -/
inductive Run (α : Type) where
  | done (a : α)
  | panicked
  | outOfFuel
  deriving DecidableEq

/-- Go `parseCsv` (main.go 53-83). `fs` is the file system as seen by
`os.Open` (`none`: the file cannot be opened; the error is printed and the
function goes on). The result is `records[1:], records[0]`, which panics on an
empty `records`. -/
def parseCsv (fs : GoString → Option CsvReader) (filepath : GoString) (fuel : Nat) :
    Run (List (List GoString) × List GoString) :=
  let reader := NewReader (fs filepath)
  match readLoop reader fuel 0 [] with
  | none => Run.outOfFuel
  | some [] => Run.panicked
  | some (header :: rows) => Run.done (rows, header)

/-! ## `main.go`: the song store -/

/-- What the embedding needs to know of `float64`: the zero value, the value a
`FLOAT` column gives back for a bound `float64` (`none`: the column holds NULL,
which is how SQLite stores a NaN), `strconv.FormatFloat(f, 'g', -1, 64)` and
`strconv.ParseFloat(s, 64)`. -/
structure FloatOps (F : Type) where
  zero : F
  store : F → Option F
  format : F → GoString
  parse : GoString → Option F

/-- One row of the SQLite table `songs`, a field per column of `createTable`
(main.go 136-155). The table is written by `insertData` only, which binds a Go
string to every `TEXT` column, an `int` to every `INT` column and a `float64`
to every `FLOAT` column; so the only NULLs are those of NaN floats. -/
structure Row (F : Type) where
  id : GoString
  name : GoString
  artists : GoString
  danceability : Option F
  energy : Option F
  key : Int
  loudness : Option F
  mode : Int
  speechiness : Option F
  acousticness : Option F
  instrumentalness : Option F
  liveness : Option F
  valence : Option F
  tempo : Option F
  duration_ms : Int
  time_signature : Int
  deriving DecidableEq

/-- The content of the table `songs`, in row order; `id` is the primary key. -/
abbrev DB (F : Type) := List (Row F)

/-- A column value as the driver hands it to `database/sql`. -/
inductive SqlValue (F : Type) where
  | null
  | integer (i : Int)
  | real (f : F)
  | text (s : GoString)
  deriving DecidableEq

/-- An error of `db.Exec`. -/
inductive SqlError where
  | uniqueConstraint (id : GoString)
  deriving DecidableEq

/-- The row written by the `INSERT` of `insertData` (main.go 166-169): column
number `k` of the column list `(id, name, artists, danceability, energy, key,
loudness, mode, speechiness, acousticness, instrumentalness, liveness, valence,
tempo, duration_ms, time_signature)` receives argument number `k` of
`db.Exec(sqlStmt, song.id, song.name, song.artists, song.danceability,
song.energy, song.key, song.loudness, song.mode, song.speechiness,
song.acousticness, song.instrumentalness, song.liveness, song.valence,
song.tempo, song.duration_ms, song.time_signature)`. -/
def insertRow {F : Type} (M : FloatOps F) (song : Song F) : Row F :=
  { id := song.id
    name := song.name
    artists := song.artists
    danceability := M.store song.danceability
    energy := M.store song.energy
    key := song.key
    loudness := M.store song.loudness
    mode := song.mode
    speechiness := M.store song.speechiness
    acousticness := M.store song.acousticness
    instrumentalness := M.store song.instrumentalness
    liveness := M.store song.liveness
    valence := M.store song.valence
    tempo := M.store song.tempo
    duration_ms := song.duration_ms
    time_signature := song.time_signature }

/-- SQLite `INSERT INTO songs(...) VALUES(...)` under `id TEXT NOT NULL PRIMARY
KEY`: a row whose id is already in the table is refused with a constraint
error and the table is unchanged; otherwise the row is added. -/
def execInsert {F : Type} (M : FloatOps F) (db : DB F) (song : Song F) :
    DB F × Option SqlError :=
  if db.any (fun row => row.id == song.id) then (db, some (SqlError.uniqueConstraint song.id))
  else (db ++ [insertRow M song], none)

/-- The loop of `insertData` (main.go 164-173): one `INSERT` per song; an error
is printed (added to `log`) and the loop goes on. -/
def insertLoop {F : Type} (M : FloatOps F) :
    List (Song F) → DB F → List SqlError → DB F × List SqlError
  | [], db, log => (db, log)
  | song :: rest, db, log =>
    match execInsert M db song with
    | (db1, some err) => insertLoop M rest db1 (log ++ [err])
    | (db1, none) => insertLoop M rest db1 log

/-- Go `insertData` (main.go 163-174): the table afterwards and the errors
printed. -/
def insertData {F : Type} (M : FloatOps F) (db : DB F) (songs : List (Song F)) :
    DB F × List SqlError :=
  insertLoop M songs db []

/-- A `FLOAT` cell as a column value. -/
def realCell {F : Type} (cell : Option F) : SqlValue F :=
  match cell with
  | none => SqlValue.null
  | some f => SqlValue.real f

/-- The columns of one result row of `SELECT *`, in the column order of
`createTable`. -/
def selectStar {F : Type} (row : Row F) : List (SqlValue F) :=
  [SqlValue.text row.id, SqlValue.text row.name, SqlValue.text row.artists,
    realCell row.danceability, realCell row.energy, SqlValue.integer row.key,
    realCell row.loudness, SqlValue.integer row.mode, realCell row.speechiness,
    realCell row.acousticness, realCell row.instrumentalness, realCell row.liveness,
    realCell row.valence, realCell row.tempo, SqlValue.integer row.duration_ms,
    SqlValue.integer row.time_signature]

/-- Go `database/sql` `convertAssign` to a `*string`: text as it is, a number
as its text; NULL is an error. -/
def convertString {F : Type} (M : FloatOps F) : SqlValue F → Option GoString
  | SqlValue.null => none
  | SqlValue.integer i => some (Itoa i)
  | SqlValue.real f => some (M.format f)
  | SqlValue.text s => some s

/-- Go `database/sql` `convertAssign` to a `*float64`: a `float64` as it is,
anything else through `ParseFloat` of its text; NULL is an error. -/
def convertFloat64 {F : Type} (M : FloatOps F) : SqlValue F → Option F
  | SqlValue.null => none
  | SqlValue.integer i => M.parse (Itoa i)
  | SqlValue.real f => some f
  | SqlValue.text s => M.parse s

/-- Go `database/sql` `convertAssign` to a `*int`: `ParseInt` of the text of the
value; NULL is an error. -/
def convertInt {F : Type} (M : FloatOps F) : SqlValue F → Option Int
  | SqlValue.null => none
  | SqlValue.integer i => Atoi (Itoa i)
  | SqlValue.real f => Atoi (M.format f)
  | SqlValue.text s => Atoi s

/-- The sixteen destinations of `rows.Scan` (main.go 186, 213), in order:
each converts a column value and assigns it to its field of `song`; `none` is
a conversion error. -/
def scanTargets {F : Type} (M : FloatOps F) : List (SqlValue F → Song F → Option (Song F)) :=
  [fun v song => (convertString M v).map (fun x => { song with id := x }),
   fun v song => (convertString M v).map (fun x => { song with name := x }),
   fun v song => (convertString M v).map (fun x => { song with artists := x }),
   fun v song => (convertFloat64 M v).map (fun x => { song with danceability := x }),
   fun v song => (convertFloat64 M v).map (fun x => { song with energy := x }),
   fun v song => (convertInt M v).map (fun x => { song with key := x }),
   fun v song => (convertFloat64 M v).map (fun x => { song with loudness := x }),
   fun v song => (convertInt M v).map (fun x => { song with mode := x }),
   fun v song => (convertFloat64 M v).map (fun x => { song with speechiness := x }),
   fun v song => (convertFloat64 M v).map (fun x => { song with acousticness := x }),
   fun v song => (convertFloat64 M v).map (fun x => { song with instrumentalness := x }),
   fun v song => (convertFloat64 M v).map (fun x => { song with liveness := x }),
   fun v song => (convertFloat64 M v).map (fun x => { song with valence := x }),
   fun v song => (convertFloat64 M v).map (fun x => { song with tempo := x }),
   fun v song => (convertInt M v).map (fun x => { song with duration_ms := x }),
   fun v song => (convertInt M v).map (fun x => { song with time_signature := x })]

/-- The assignment loop of `Rows.Scan`: column by column; the first conversion
error ends it, and the destinations not yet reached keep their values. The
flag is `true` on an error. -/
def scanLoop {F : Type} :
    List (SqlValue F) → List (SqlValue F → Song F → Option (Song F)) → Song F → Song F × Bool
  | v :: vs, target :: targets, song =>
    match target v song with
    | none => (song, true)
    | some song1 => scanLoop vs targets song1
  | _, _, song => (song, false)

/-- Go `rows.Scan(&song.id, ..., &song.time_signature)`: an error before any
assignment when the number of columns is not the number of destinations. -/
def Scan {F : Type} (M : FloatOps F) (columns : List (SqlValue F)) (song : Song F) :
    Song F × Bool :=
  if columns.length ≠ (scanTargets M).length then (song, true)
  else scanLoop columns (scanTargets M) song

/-- Go `var song Song`: the zero value. -/
def zeroSong {F : Type} (M : FloatOps F) : Song F :=
  { id := [], name := [], artists := [], danceability := M.zero, energy := M.zero, key := 0,
    loudness := M.zero, mode := 0, speechiness := M.zero, acousticness := M.zero,
    instrumentalness := M.zero, liveness := M.zero, valence := M.zero, tempo := M.zero,
    duration_ms := 0, time_signature := 0 }

/-- The `rows.Next` / `rows.Scan` loop shared by `getData` and `findArtist`
(main.go 184-191, 211-218): every result row is scanned into a fresh `Song`,
which is appended whether or not `Scan` reported an error (the error is
printed only). -/
def scanRows {F : Type} (M : FloatOps F) : List (Row F) → List (Song F) → List (Song F)
  | [], songs => songs
  | row :: rest, songs =>
    scanRows M rest (songs ++ [(Scan M (selectStar row) (zeroSong M)).1])

/-- Go `getData` (main.go 177-197): `SELECT * FROM songs`. -/
def getData {F : Type} (M : FloatOps F) (db : DB F) : List (Song F) :=
  scanRows M db []

/-- ASCII lower case, as SQLite's `sqlite3Tolower`. -/
def asciiLower (c : Char) : Char :=
  if 65 ≤ c.toNat ∧ c.toNat ≤ 90 then Char.ofNat (c.toNat + 32) else c

/-- SQLite's `sqlite3Utf8Read` on a well-formed character: U+FFFE and U+FFFF
are read as U+FFFD. -/
def utf8Read (c : Char) : Char :=
  if c.toNat = 0xFFFE ∨ c.toNat = 0xFFFF then Char.ofNat 0xFFFD else c

/-- Character comparison of SQLite's default `LIKE`, on the characters as
read: equal, or both ASCII and equal up to letter case. -/
def likeCharEq (c d : Char) : Bool :=
  utf8Read c == utf8Read d ||
    (decide ((utf8Read c).toNat < 128) && decide ((utf8Read d).toNat < 128) &&
      asciiLower (utf8Read c) == asciiLower (utf8Read d))

/-- SQLite's `patternCompare` for the default `LIKE` (no `ESCAPE`,
`case_sensitive_like` off, no ICU): `likeMatch pattern text`. In the pattern
`%` matches any run of characters, also the empty one, `_` matches any one
character, and every other character matches by `likeCharEq`. -/
def likeMatch : GoString → GoString → Bool
  | [], text => text.isEmpty
  | c :: pattern, text =>
    if c = '%' then text.tails.any (likeMatch pattern)
    else
      match text with
      | [] => false
      | d :: rest => (c == '_' || likeCharEq c d) && likeMatch pattern rest

/-- The part of a text before its first NUL character: what SQLite's `LIKE`
reads of a pattern or a text, both taken as C strings. -/
def cString (s : GoString) : GoString :=
  s.takeWhile (fun c => c.toNat != 0)

/-- Number of bytes of the UTF-8 encoding of a character. -/
def utf8Size (c : Char) : Nat :=
  if c.toNat < 0x80 then 1 else if c.toNat < 0x800 then 2 else if c.toNat < 0x10000 then 3 else 4

/-- Length of a string in bytes (Go `len`). -/
def byteLen (s : GoString) : Nat :=
  (s.map utf8Size).sum

/-- SQLite's `SQLITE_MAX_LIKE_PATTERN_LENGTH`, in bytes. -/
def likePatternLimit : Nat := 50000

/-- SQLite's `likeFunc` on a text value: a pattern of more than
`likePatternLimit` bytes is an error (`none`, "LIKE or GLOB pattern too
complex"); otherwise pattern and text are compared up to their first NUL. -/
def sqliteLike (pattern text : GoString) : Option Bool :=
  if likePatternLimit < byteLen pattern then none
  else some (likeMatch (cString pattern) (cString text))

/-- The rows delivered by `SELECT * FROM songs WHERE artists LIKE ?`, in row
order: an error of `LIKE` ends the statement, and `rows.Next` reports no
further row. -/
def selectLike {F : Type} (pattern : GoString) : List (Row F) → List (Row F)
  | [] => []
  | row :: rest =>
    match sqliteLike pattern row.artists with
    | none => []
    | some true => row :: selectLike pattern rest
    | some false => selectLike pattern rest

/-- A well-formed data row of sixteen fields; the key is written `5.0`. -/
def goodRow : List GoString :=
  ["7", "Nonstop", "Drake", "0.5", "0.5", "5.0", "0.5", "1", "0.5", "0.5", "0.5", "0.5",
    "0.5", "0.5", "200000", "4"].map String.toList

/-- The song of `goodRow`, with float tokens of `decimalParseFloat`. -/
def goodSong : Song GoString :=
  { id := "7".toList, name := "Nonstop".toList, artists := "Drake".toList,
    danceability := "0.5".toList, energy := "0.5".toList, key := 5,
    loudness := "0.5".toList, mode := 1, speechiness := "0.5".toList,
    acousticness := "0.5".toList, instrumentalness := "0.5".toList,
    liveness := "0.5".toList, valence := "0.5".toList, tempo := "0.5".toList,
    duration_ms := 200000, time_signature := 4 }

/-- The row `goodRow` with the key text `5.5`. -/
def badKeyRow : List GoString := goodRow.set 5 "5.5".toList

/-- The row `goodRow` with a seventeenth field. -/
def longRow : List GoString := goodRow ++ ["extra".toList]

/-- The first fifteen fields of `goodRow`. -/
def shortRow : List GoString := goodRow.take 15

/-- The reader over a file that holds finitely many records: the results in
`results`, then `io.EOF` on every further call. -/
def fileReader (results : List ReadResult) : CsvReader :=
  fun k => (results[k]?).getD { record := [], err := some ReadError.EOF }

/-- A file of ten records: a header and nine data rows. -/
def tenRecords : List (List GoString) :=
  ["id".toList, "name".toList] :: (List.range 9).map (fun k => Nat.toDigits 10 k :: ["x".toList])

/-- The reads of a file whose second record has a grammar error: the reader
returns the fields read so far together with the error. -/
def brokenFile : List ReadResult :=
  [{ record := ["id".toList, "name".toList], err := none },
   { record := ["a".toList], err := some ReadError.other },
   { record := ["b".toList, "c".toList], err := none }]

/-- A stand-in for `float64` at concrete inputs, on the float tokens of
`decimalParseFloat`: the token `NaN` stands for a NaN, which a `FLOAT` column
stores as NULL; every other token is stored as it is. -/
def tokenFloats : FloatOps GoString :=
  { zero := "0".toList
    store := fun f => if f = "NaN".toList then none else some f
    format := fun f => f
    parse := decimalParseFloat }

/-- A song with the given id and artists; the other fields are those of
`goodSong`. -/
def sampleSong (id artists : String) : Song GoString :=
  { goodSong with id := id.toList, artists := artists.toList }

/-- The store of the end-to-end scenario: artists `Drake`, `Drake ft. Future`
and `Adele`. -/
def drakeStore : DB GoString :=
  [sampleSong "1" "Drake", sampleSong "2" "Drake ft. Future", sampleSong "3" "Adele"].map
    (insertRow tokenFloats)

/-- A batch with duplicate ids: id 1 is in `drakeStore` already, id 8 comes
twice. -/
def duplicateBatch : List (Song GoString) :=
  [sampleSong "1" "Rihanna", sampleSong "8" "Dua Lipa", sampleSong "8" "Cardi B",
    sampleSong "9" "Migos"]

/-- A song whose loudness is a NaN. -/
def nanSong : Song GoString :=
  { goodSong with loudness := "NaN".toList }

/-- What `getData` gives back for `nanSong`: the loudness and every field
scanned after it have the zero value. -/
def nanSongScanned : Song GoString :=
  { id := "7".toList, name := "Nonstop".toList, artists := "Drake".toList,
    danceability := "0.5".toList, energy := "0.5".toList, key := 5,
    loudness := "0".toList, mode := 0, speechiness := "0".toList,
    acousticness := "0".toList, instrumentalness := "0".toList,
    liveness := "0".toList, valence := "0".toList, tempo := "0".toList,
    duration_ms := 0, time_signature := 0 }

end SpotifyTop2018

namespace SpotifyTop2018

/-! ## Lemmas on decimal text -/

theorem digitVal_digitChar (d : Nat) (h : d < 10) : digitVal (Nat.digitChar d) = some d := by
  interval_cases d <;> decide

theorem parseUintLoop_append (xs ys : GoString) (n : Nat) :
    parseUintLoop (xs ++ ys) n = (parseUintLoop xs n).bind (parseUintLoop ys) := by
  induction xs generalizing n with
  | nil => rfl
  | cons c cs ih =>
    simp only [List.cons_append, parseUintLoop]
    cases digitVal c with
    | none => rfl
    | some d => exact ih _

theorem parseUintLoop_digits (s : GoString) (n m : Nat) (h : parseUintLoop s n = some m) :
    ∀ c ∈ s, digitVal c ≠ none := by
  induction s generalizing n with
  | nil => intro c hc; cases hc
  | cons a as ih =>
    intro c hc
    simp only [parseUintLoop] at h
    cases hd : digitVal a with
    | none => rw [hd] at h; cases h
    | some d =>
      rw [hd] at h
      rcases List.mem_cons.mp hc with rfl | hc
      · rw [hd]; exact Option.some_ne_none d
      · exact ih _ h c hc

theorem toDigitsCore_acc (fuel n : Nat) (ds : List Char) :
    Nat.toDigitsCore 10 fuel n ds = Nat.toDigitsCore 10 fuel n [] ++ ds := by
  induction fuel generalizing n ds with
  | zero => simp [Nat.toDigitsCore]
  | succ f ih =>
    simp only [Nat.toDigitsCore]
    split
    · simp
    · rw [ih (n / 10) (_ :: ds), ih (n / 10) [_]]; simp

theorem parseUintLoop_toDigitsCore (fuel n : Nat) (h : n < fuel) :
    parseUintLoop (Nat.toDigitsCore 10 fuel n []) 0 = some n := by
  induction fuel generalizing n with
  | zero => omega
  | succ f ih =>
    simp only [Nat.toDigitsCore]
    split
    · have hn : n < 10 := by omega
      simp [parseUintLoop, digitVal_digitChar, Nat.mod_eq_of_lt hn, hn]
    · rw [toDigitsCore_acc, parseUintLoop_append, ih (n / 10) (by omega)]
      simp only [Option.bind, parseUintLoop, digitVal_digitChar (n % 10) (Nat.mod_lt _ (by decide))]
      congr 1
      omega

theorem parseUintLoop_toDigits (n : Nat) : parseUintLoop (Nat.toDigits 10 n) 0 = some n :=
  parseUintLoop_toDigitsCore (n + 1) n (Nat.lt_succ_self n)

theorem toDigits_ne_nil (n : Nat) : Nat.toDigits 10 n ≠ [] := by
  intro h
  have := parseUintLoop_toDigits n
  rw [h] at this
  simp only [parseUintLoop, Option.some.injEq] at this
  subst this
  revert h
  decide

theorem ParseUint_toDigits (n : Nat) : ParseUint (Nat.toDigits 10 n) = some n := by
  have h := parseUintLoop_toDigits n
  have hne := toDigits_ne_nil n
  cases hs : Nat.toDigits 10 n with
  | nil => exact absurd hs hne
  | cons c cs => rw [hs] at h; simpa only [ParseUint] using h

theorem toDigits_digit (n : Nat) : ∀ c ∈ Nat.toDigits 10 n, digitVal c ≠ none :=
  parseUintLoop_digits _ 0 n (parseUintLoop_toDigits n)

/-- The decimal text of an `int` parses back to it. -/
theorem Atoi_Itoa (n : Int) (hlo : -(2 : Int) ^ (intSize - 1) ≤ n)
    (hhi : n < (2 : Int) ^ (intSize - 1)) : Atoi (Itoa n) = some n := by
  have eN : (2 : Nat) ^ (intSize - 1) = 9223372036854775808 := by norm_num [intSize]
  have eZ : (2 : Int) ^ (intSize - 1) = 9223372036854775808 := by norm_num [intSize]
  rw [eZ] at hlo hhi
  unfold Itoa
  split
  · rename_i hneg
    simp only [Atoi, ParseUint_toDigits]
    have h1 : ¬ (2 ^ (intSize - 1) < n.natAbs) := by rw [eN]; omega
    simp [h1]
    rw [ParseUint_toDigits]
    simp only [h1, if_false]
    congr 1
    omega
  · rename_i hnn
    have hp := ParseUint_toDigits n.toNat
    have hd := toDigits_digit n.toNat
    cases hs : Nat.toDigits 10 n.toNat with
    | nil => exact absurd hs (toDigits_ne_nil _)
    | cons c cs =>
      rw [hs] at hp hd
      have hc : digitVal c ≠ none := hd c (List.mem_cons_self _ _)
      have hplus : (c == '+') = false := by
        rw [beq_eq_false_iff_ne]; rintro rfl; exact hc (by decide)
      have hminus : (c == '-') = false := by
        rw [beq_eq_false_iff_ne]; rintro rfl; exact hc (by decide)
      simp only [Atoi, hplus, hminus, Bool.or_self, Bool.false_eq_true, if_false, hp]
      have h1 : ¬ (2 ^ (intSize - 1) ≤ n.toNat) := by rw [eN]; omega
      simp [h1]
      omega

theorem Itoa_no_dot (n : Int) : '.' ∉ Itoa n := by
  unfold Itoa
  split
  · intro h
    rcases List.mem_cons.mp h with h | h
    · revert h; decide
    · exact toDigits_digit _ _ h (by decide)
  · intro h
    exact toDigits_digit _ _ h (by decide)

theorem TrimSuffix_no_dot (s : GoString) (h : '.' ∉ s) : TrimSuffix s ".0".toList = s := by
  unfold TrimSuffix
  have : HasSuffix s ".0".toList = false := by
    by_contra hc
    rw [Bool.not_eq_false] at hc
    simp only [HasSuffix, Bool.and_eq_true, beq_iff_eq] at hc
    apply h
    have hm : '.' ∈ List.drop (s.length - ".0".toList.length) s := by
      rw [hc.2]; decide
    exact List.mem_of_mem_drop hm
  rw [this]
  simp

theorem TrimSuffix_append (s : GoString) : TrimSuffix (s ++ ".0".toList) ".0".toList = s := by
  have h : HasSuffix (s ++ ".0".toList) ".0".toList = true := by
    simp [HasSuffix]
  unfold TrimSuffix
  rw [h]
  simp

/-- C1. For every integer `n` in the range of Go's `int`, `stringToInt` applied
to the decimal text of `n` returns `n`, and applied to that text followed by
`.0` it returns `n` as well. -/
theorem stringToInt_decimal_text (n : Int) (hlo : -(2 : Int) ^ (intSize - 1) ≤ n)
    (hhi : n < (2 : Int) ^ (intSize - 1)) :
    stringToInt (Itoa n) = some n ∧ stringToInt (Itoa n ++ ".0".toList) = some n := by
  constructor
  · simp only [stringToInt, TrimSuffix_no_dot _ (Itoa_no_dot n), Atoi_Itoa n hlo hhi]
  · simp only [stringToInt, TrimSuffix_append, Atoi_Itoa n hlo hhi]

/-- C1 at `n = 5`: the texts `5` and `5.0` both give the key 5. -/
theorem stringToInt_decimal_text_witness :
    Itoa 5 = "5".toList ∧ stringToInt "5".toList = some 5 ∧ stringToInt "5.0".toList = some 5 :=
  ⟨by decide, stringToInt_decimal_text 5 (by decide) (by decide)⟩

/-! ## Lemmas on `parseSong` -/

section ParseSong

variable {F : Type} (ParseFloat : GoString → Option F)

theorem parseSongLoop_none (records : List (List GoString)) (songs : List (Song F))
    (h : ∃ r ∈ records, songLiteral ParseFloat r = none) :
    parseSongLoop ParseFloat records songs = none := by
  induction records generalizing songs with
  | nil => obtain ⟨r, hr, _⟩ := h; cases hr
  | cons record rest ih =>
    simp only [parseSongLoop]
    cases hs : songLiteral ParseFloat record with
    | none => rfl
    | some song =>
      obtain ⟨r, hr, hnone⟩ := h
      rcases List.mem_cons.mp hr with rfl | hr
      · rw [hs] at hnone; cases hnone
      · exact ih _ ⟨r, hr, hnone⟩

theorem parseSongLoop_some (records : List (List GoString)) (songs : List (Song F))
    (h : ∀ r ∈ records, songLiteral ParseFloat r ≠ none) :
    ∃ out, parseSongLoop ParseFloat records songs = some (songs ++ out) ∧
      List.Forall₂ (fun r s => songLiteral ParseFloat r = some s) records out := by
  induction records generalizing songs with
  | nil => exact ⟨[], by simp [parseSongLoop], List.Forall₂.nil⟩
  | cons record rest ih =>
    cases hs : songLiteral ParseFloat record with
    | none => exact absurd hs (h record (List.mem_cons_self _ _))
    | some song =>
      obtain ⟨out, hout, hrel⟩ :=
        ih (songs ++ [song]) (fun r hr => h r (List.mem_cons_of_mem _ hr))
      refine ⟨song :: out, ?_, List.Forall₂.cons hs hrel⟩
      simp only [parseSongLoop, hs, hout, List.append_assoc, List.singleton_append]

theorem parseSongLoop_congr (records records2 : List (List GoString)) (songs : List (Song F))
    (h : List.Forall₂ (fun r r2 => songLiteral ParseFloat r = songLiteral ParseFloat r2)
      records records2) :
    parseSongLoop ParseFloat records songs = parseSongLoop ParseFloat records2 songs := by
  induction h generalizing songs with
  | nil => rfl
  | cons hr _ ih =>
    simp only [parseSongLoop, hr]
    split
    · rfl
    · exact ih _

theorem songLiteral_short (record : List GoString) (h : record.length < 16) :
    songLiteral ParseFloat record = none := by
  have h15 : index record 15 = none := by
    simp only [index]
    exact List.getElem?_eq_none (by omega)
  unfold songLiteral
  rw [h15]
  repeat (first | rfl | split)

theorem songLiteral_take (record : List GoString) :
    songLiteral ParseFloat (record.take 16) = songLiteral ParseFloat record := by
  have h : ∀ i, i < 16 → index (record.take 16) i = index record i := by
    intro i hi
    simp only [index]
    rw [List.getElem?_take, if_pos hi]
  simp only [songLiteral, h 0 (by decide), h 1 (by decide), h 2 (by decide), h 3 (by decide),
    h 4 (by decide), h 5 (by decide), h 6 (by decide), h 7 (by decide), h 8 (by decide),
    h 9 (by decide), h 10 (by decide), h 11 (by decide), h 12 (by decide), h 13 (by decide),
    h 14 (by decide), h 15 (by decide)]

end ParseSong

/-! ## Theorems on `parseSong` -/

section ParseSongClaims

variable {F : Type} (ParseFloat : GoString → Option F)

theorem songLiteral_bad_int (record : List GoString) (i : Nat) (hi : i ∈ [5, 7, 14, 15])
    (h : (index record i).bind stringToInt = none) : songLiteral ParseFloat record = none := by
  simp only [List.mem_cons, List.mem_singleton, List.not_mem_nil, or_false] at hi
  rcases hi with rfl | rfl | rfl | rfl <;>
  · unfold songLiteral
    rw [h]
    repeat (first | rfl | split)

theorem songLiteral_fields (record : List GoString) (s : Song F)
    (h : songLiteral ParseFloat record = some s) :
    index record 0 = some s.id ∧ index record 1 = some s.name ∧
    index record 2 = some s.artists ∧
    (index record 3).bind (stringToFloat ParseFloat) = some s.danceability ∧
    (index record 4).bind (stringToFloat ParseFloat) = some s.energy ∧
    (index record 5).bind stringToInt = some s.key ∧
    (index record 6).bind (stringToFloat ParseFloat) = some s.loudness ∧
    (index record 7).bind stringToInt = some s.mode ∧
    (index record 8).bind (stringToFloat ParseFloat) = some s.speechiness ∧
    (index record 9).bind (stringToFloat ParseFloat) = some s.acousticness ∧
    (index record 10).bind (stringToFloat ParseFloat) = some s.instrumentalness ∧
    (index record 11).bind (stringToFloat ParseFloat) = some s.liveness ∧
    (index record 12).bind (stringToFloat ParseFloat) = some s.valence ∧
    (index record 13).bind (stringToFloat ParseFloat) = some s.tempo ∧
    (index record 14).bind stringToInt = some s.duration_ms ∧
    (index record 15).bind stringToInt = some s.time_signature := by
  unfold songLiteral at h
  split at h
  · cases h
  rename_i v0 h0
  split at h
  · cases h
  rename_i v1 h1
  split at h
  · cases h
  rename_i v2 h2
  split at h
  · cases h
  rename_i v3 h3
  split at h
  · cases h
  rename_i v4 h4
  split at h
  · cases h
  rename_i v5 h5
  split at h
  · cases h
  rename_i v6 h6
  split at h
  · cases h
  rename_i v7 h7
  split at h
  · cases h
  rename_i v8 h8
  split at h
  · cases h
  rename_i v9 h9
  split at h
  · cases h
  rename_i v10 h10
  split at h
  · cases h
  rename_i v11 h11
  split at h
  · cases h
  rename_i v12 h12
  split at h
  · cases h
  rename_i v13 h13
  split at h
  · cases h
  rename_i v14 h14
  split at h
  · cases h
  rename_i v15 h15
  cases h
  exact ⟨h0, h1, h2, h3, h4, h5, h6, h7, h8, h9, h10, h11, h12, h13, h14, h15⟩

theorem songLiteral_valid (record : List GoString) (hlen : record.length = 16)
    (hint : ∀ i ∈ [5, 7, 14, 15], (index record i).bind stringToInt ≠ none)
    (hfloat : ∀ i ∈ [3, 4, 6, 8, 9, 10, 11, 12, 13],
      (index record i).bind (stringToFloat ParseFloat) ≠ none) :
    songLiteral ParseFloat record ≠ none := by
  have hidx : ∀ i, i < 16 → ∃ f, index record i = some f := by
    intro i hi
    exact ⟨record[i], List.getElem?_eq_getElem (by omega)⟩
  obtain ⟨v0, h0⟩ := hidx 0 (by decide)
  obtain ⟨v1, h1⟩ := hidx 1 (by decide)
  obtain ⟨v2, h2⟩ := hidx 2 (by decide)
  obtain ⟨v3, h3⟩ := Option.ne_none_iff_exists'.mp (hfloat 3 (by decide))
  obtain ⟨v4, h4⟩ := Option.ne_none_iff_exists'.mp (hfloat 4 (by decide))
  obtain ⟨v5, h5⟩ := Option.ne_none_iff_exists'.mp (hint 5 (by decide))
  obtain ⟨v6, h6⟩ := Option.ne_none_iff_exists'.mp (hfloat 6 (by decide))
  obtain ⟨v7, h7⟩ := Option.ne_none_iff_exists'.mp (hint 7 (by decide))
  obtain ⟨v8, h8⟩ := Option.ne_none_iff_exists'.mp (hfloat 8 (by decide))
  obtain ⟨v9, h9⟩ := Option.ne_none_iff_exists'.mp (hfloat 9 (by decide))
  obtain ⟨v10, h10⟩ := Option.ne_none_iff_exists'.mp (hfloat 10 (by decide))
  obtain ⟨v11, h11⟩ := Option.ne_none_iff_exists'.mp (hfloat 11 (by decide))
  obtain ⟨v12, h12⟩ := Option.ne_none_iff_exists'.mp (hfloat 12 (by decide))
  obtain ⟨v13, h13⟩ := Option.ne_none_iff_exists'.mp (hfloat 13 (by decide))
  obtain ⟨v14, h14⟩ := Option.ne_none_iff_exists'.mp (hint 14 (by decide))
  obtain ⟨v15, h15⟩ := Option.ne_none_iff_exists'.mp (hint 15 (by decide))
  unfold songLiteral
  rw [h0, h1, h2, h3, h4, h5, h6, h7, h8, h9, h10, h11, h12, h13, h14, h15]
  intro hc
  cases hc

/-- C2. A bad integer field is fatal for the whole load: when some row has, at
position 5, 7, 14 or 15 (key, mode, duration_ms, time_signature), a text that
is no valid integer once one trailing `.0` is removed, `parseSong` panics and
returns no songs at all, whatever the other rows are. -/
theorem parseSong_bad_int_fatal (records : List (List GoString))
    (h : ∃ r ∈ records, ∃ i ∈ [5, 7, 14, 15], ∃ f, index r i = some f ∧
      Atoi (TrimSuffix f ".0".toList) = none) :
    parseSong ParseFloat records = none := by
  obtain ⟨r, hr, i, hi, f, hf, hbad⟩ := h
  apply parseSongLoop_none
  refine ⟨r, hr, songLiteral_bad_int ParseFloat r i hi ?_⟩
  rw [hf]
  simp only [Option.some_bind, stringToInt, hbad]

/-- C3, amended. A row of fewer than sixteen fields makes `parseSong` panic;
fields after the sixteenth are ignored: `parseSong` gives the same result on
the rows cut to their first sixteen fields. -/
theorem parseSong_arity (records : List (List GoString)) :
    ((∃ r ∈ records, r.length < 16) → parseSong ParseFloat records = none) ∧
    parseSong ParseFloat (records.map (List.take 16)) = parseSong ParseFloat records := by
  constructor
  · rintro ⟨r, hr, hlen⟩
    exact parseSongLoop_none ParseFloat records [] ⟨r, hr, songLiteral_short ParseFloat r hlen⟩
  · apply parseSongLoop_congr
    rw [List.forall₂_map_left_iff]
    exact List.forall₂_same.mpr (fun r _ => songLiteral_take ParseFloat r)

/-- C4. Positional mapping, in order: on rows of exactly sixteen fields with
valid numeric text `parseSong` returns one song per row, and song number `i`
has id, name, artists = fields 0, 1, 2 of row number `i`, its integers key,
mode, duration_ms, time_signature are the values of fields 5, 7, 14, 15, and
its floats danceability, energy, loudness, speechiness, acousticness,
instrumentalness, liveness, valence, tempo those of fields 3, 4, 6, 8, 9, 10,
11, 12, 13. -/
theorem parseSong_positional (records : List (List GoString))
    (hlen : ∀ r ∈ records, r.length = 16)
    (hint : ∀ r ∈ records, ∀ i ∈ [5, 7, 14, 15], (index r i).bind stringToInt ≠ none)
    (hfloat : ∀ r ∈ records, ∀ i ∈ [3, 4, 6, 8, 9, 10, 11, 12, 13],
      (index r i).bind (stringToFloat ParseFloat) ≠ none) :
    ∃ songs, parseSong ParseFloat records = some songs ∧ songs.length = records.length ∧
      ∀ (i : Nat) (r : List GoString) (s : Song F),
        records[i]? = some r → songs[i]? = some s →
        index r 0 = some s.id ∧ index r 1 = some s.name ∧ index r 2 = some s.artists ∧
        (index r 3).bind (stringToFloat ParseFloat) = some s.danceability ∧
        (index r 4).bind (stringToFloat ParseFloat) = some s.energy ∧
        (index r 5).bind stringToInt = some s.key ∧
        (index r 6).bind (stringToFloat ParseFloat) = some s.loudness ∧
        (index r 7).bind stringToInt = some s.mode ∧
        (index r 8).bind (stringToFloat ParseFloat) = some s.speechiness ∧
        (index r 9).bind (stringToFloat ParseFloat) = some s.acousticness ∧
        (index r 10).bind (stringToFloat ParseFloat) = some s.instrumentalness ∧
        (index r 11).bind (stringToFloat ParseFloat) = some s.liveness ∧
        (index r 12).bind (stringToFloat ParseFloat) = some s.valence ∧
        (index r 13).bind (stringToFloat ParseFloat) = some s.tempo ∧
        (index r 14).bind stringToInt = some s.duration_ms ∧
        (index r 15).bind stringToInt = some s.time_signature := by
  obtain ⟨out, hout, hrel⟩ := parseSongLoop_some ParseFloat records []
    (fun r hr => songLiteral_valid ParseFloat r (hlen r hr) (hint r hr) (hfloat r hr))
  refine ⟨out, by simpa [parseSong] using hout, hrel.length_eq.symm, ?_⟩
  intro i r s hr hs
  obtain ⟨hi1, rfl⟩ := List.getElem?_eq_some.mp hr
  obtain ⟨hi2, rfl⟩ := List.getElem?_eq_some.mp hs
  exact songLiteral_fields ParseFloat _ _ (hrel.get hi1 hi2)

end ParseSongClaims

/-- C2 at the rows `goodRow`, `badKeyRow` (key `5.5`): nothing is returned. The
texts `5.5`, `5.0.0`, `.0` and the empty text are all refused. -/
theorem parseSong_bad_int_fatal_witness :
    parseSong decimalParseFloat [goodRow, badKeyRow] = none ∧
    parseSong decimalParseFloat [goodRow] = some [goodSong] ∧
    stringToInt "5.5".toList = none ∧ stringToInt "5.0.0".toList = none ∧
    stringToInt ".0".toList = none ∧ stringToInt [] = none :=
  ⟨parseSong_bad_int_fatal decimalParseFloat [goodRow, badKeyRow]
      ⟨badKeyRow, by decide, 5, by decide, "5.5".toList, by decide, by decide⟩,
    by decide, by decide, by decide, by decide, by decide⟩

/-- C3 as stated fails: the seventeen-field row `longRow` is converted to a
song. -/
theorem parseSong_arity_counterexample :
    longRow.length = 17 ∧ parseSong decimalParseFloat [longRow] = some [goodSong] := by
  decide

/-- C3, amended, at the fifteen-field row `shortRow` and the seventeen-field
row `longRow`. -/
theorem parseSong_arity_witness :
    shortRow.length = 15 ∧ parseSong decimalParseFloat [goodRow, shortRow] = none ∧
    parseSong decimalParseFloat ([longRow].map (List.take 16)) =
      parseSong decimalParseFloat [longRow] :=
  ⟨by decide,
    (parseSong_arity decimalParseFloat [goodRow, shortRow]).1 ⟨shortRow, by decide, by decide⟩,
    (parseSong_arity decimalParseFloat [longRow]).2⟩

/-- C4 at the single row `goodRow`. -/
theorem parseSong_positional_witness :
    ∃ songs, parseSong decimalParseFloat [goodRow] = some songs ∧
      songs.length = [goodRow].length ∧
      ∀ (i : Nat) (r : List GoString) (s : Song GoString),
        [goodRow][i]? = some r → songs[i]? = some s →
        index r 0 = some s.id ∧ index r 1 = some s.name ∧ index r 2 = some s.artists ∧
        (index r 3).bind (stringToFloat decimalParseFloat) = some s.danceability ∧
        (index r 4).bind (stringToFloat decimalParseFloat) = some s.energy ∧
        (index r 5).bind stringToInt = some s.key ∧
        (index r 6).bind (stringToFloat decimalParseFloat) = some s.loudness ∧
        (index r 7).bind stringToInt = some s.mode ∧
        (index r 8).bind (stringToFloat decimalParseFloat) = some s.speechiness ∧
        (index r 9).bind (stringToFloat decimalParseFloat) = some s.acousticness ∧
        (index r 10).bind (stringToFloat decimalParseFloat) = some s.instrumentalness ∧
        (index r 11).bind (stringToFloat decimalParseFloat) = some s.liveness ∧
        (index r 12).bind (stringToFloat decimalParseFloat) = some s.valence ∧
        (index r 13).bind (stringToFloat decimalParseFloat) = some s.tempo ∧
        (index r 14).bind stringToInt = some s.duration_ms ∧
        (index r 15).bind stringToInt = some s.time_signature :=
  parseSong_positional decimalParseFloat [goodRow] (by decide) (by decide) (by decide)

/-! ## Theorems on `parseCsv` -/

theorem readLoop_run (reader : CsvReader) (n : Nat) :
    ∀ (fuel k : Nat) (records : List (List GoString)), n < fuel →
      (∀ j, j < n → (reader (k + j)).err ≠ some ReadError.EOF) →
      (reader (k + n)).err = some ReadError.EOF →
      readLoop reader fuel k records =
        some (records ++ (List.range n).map (fun j => (reader (k + j)).record)) := by
  induction n with
  | zero =>
    intro fuel k records hfuel _ heof
    cases fuel with
    | zero => omega
    | succ f => simp only [readLoop, Nat.add_zero] at heof ⊢; simp [heof]
  | succ n ih =>
    intro fuel k records hfuel hne heof
    cases fuel with
    | zero => omega
    | succ f =>
      have h0 : (reader k).err ≠ some ReadError.EOF := by
        have := hne 0 (Nat.succ_pos n)
        simpa using this
      simp only [readLoop, if_neg h0]
      rw [ih f (k + 1) _ (by omega)
        (fun j hj => by have := hne (j + 1) (by omega); rwa [show k + 1 + j = k + (j + 1) by omega])
        (by rwa [show k + 1 + n = k + (n + 1) by omega])]
      rw [List.range_succ_eq_map, List.map_cons, List.map_map, List.append_assoc]
      simp only [List.singleton_append, Nat.add_zero, Option.some.injEq,
        List.append_cancel_left_eq, List.cons.injEq, true_and]
      apply List.map_congr_left
      intro j _
      simp only [Function.comp, Nat.succ_eq_add_one]
      rw [show k + 1 + j = k + (j + 1) by omega]

theorem readLoop_no_eof (reader : CsvReader) (h : ∀ k, (reader k).err ≠ some ReadError.EOF) :
    ∀ (fuel k : Nat) (records : List (List GoString)), readLoop reader fuel k records = none := by
  intro fuel
  induction fuel with
  | zero => intro k records; rfl
  | succ f ih =>
    intro k records
    simp only [readLoop, if_neg (h k)]
    exact ih _ _

theorem parseCsv_of_results (fs : GoString → Option CsvReader) (filepath : GoString)
    (reader : CsvReader) (first : ReadResult) (rest : List ReadResult) (fuel : Nat)
    (hopen : fs filepath = some reader)
    (hread : ∀ k, k < (first :: rest).length →
      reader k = (first :: rest).getD k { record := [], err := none })
    (hne : ∀ r ∈ first :: rest, r.err ≠ some ReadError.EOF)
    (heof : (reader (first :: rest).length).err = some ReadError.EOF)
    (hfuel : (first :: rest).length < fuel) :
    parseCsv fs filepath fuel = Run.done (rest.map ReadResult.record, first.record) := by
  have hget : ∀ k (hk : k < (first :: rest).length), reader k = (first :: rest)[k] := by
    intro k hk
    rw [hread k hk, List.getD_eq_getElem _ _ hk]
  have hrun := readLoop_run reader (first :: rest).length fuel 0 [] hfuel
    (fun j hj => by
      rw [Nat.zero_add, hget j hj]
      exact hne _ (List.getElem_mem _)) (by rwa [Nat.zero_add])
  have hmap : (List.range (first :: rest).length).map (fun j => (reader (0 + j)).record) =
      (first :: rest).map ReadResult.record := by
    apply List.ext_getElem
    · simp
    · intro i h1 h2
      simp only [List.getElem_map, List.getElem_range, Nat.zero_add]
      rw [hget i (by simpa using h1)]
  rw [hmap] at hrun
  simp only [parseCsv, hopen, NewReader, hrun, List.nil_append, List.map_cons]

/-- C5. Header exclusion: when the reader yields the records `header :: rows`
without error and then end of file, `parseCsv` returns `header` as the header
and exactly `rows`, in order and unmodified, as the data rows. -/
theorem parseCsv_header_exclusion (fs : GoString → Option CsvReader) (filepath : GoString)
    (reader : CsvReader) (header : List GoString) (rows : List (List GoString)) (fuel : Nat)
    (hopen : fs filepath = some reader)
    (hread : ∀ k, k < (header :: rows).length →
      reader k = { record := (header :: rows).getD k [], err := none })
    (heof : (reader (header :: rows).length).err = some ReadError.EOF)
    (hfuel : (header :: rows).length < fuel) :
    parseCsv fs filepath fuel = Run.done (rows, header) := by
  have h := parseCsv_of_results fs filepath reader { record := header, err := none }
    (rows.map (fun r => { record := r, err := none })) fuel hopen
    (fun k hk => by
      have hk2 : k < (header :: rows).length := by simpa using hk
      rw [hread k hk2]
      cases k with
      | zero => rfl
      | succ j =>
        have hj : j < rows.length := by simpa using hk2
        simp [List.getD_eq_getElem, hj])
    (fun r hr => by
      rcases List.mem_cons.mp hr with rfl | hr
      · simp
      · obtain ⟨x, _, rfl⟩ := List.mem_map.mp hr
        simp)
    (by simpa using heof) (by simpa using hfuel)
  rw [h]
  simp [Function.comp_def]

/-- C5 at a file of ten records: the header is the first record and the data
rows are the nine others. -/
theorem parseCsv_header_exclusion_witness :
    tenRecords.length = 10 ∧
    ∃ header rows, tenRecords = header :: rows ∧ rows.length = 9 ∧
      parseCsv (fun _ => some (fileReader (tenRecords.map (fun r => ReadResult.mk r none))))
        "songs.csv".toList 11 = Run.done (rows, header) :=
  ⟨by decide, _, _, rfl, by decide,
    parseCsv_header_exclusion _ "songs.csv".toList _ _ _ 11 rfl (by decide) (by decide)
      (by decide)⟩

/-- C6. Empty file: when the first read reports end of file, `parseCsv` panics
(on `records[1:]` of the empty `records`); it returns no result. -/
theorem parseCsv_empty_file (fs : GoString → Option CsvReader) (filepath : GoString)
    (reader : CsvReader) (fuel : Nat) (hopen : fs filepath = some reader)
    (heof : (reader 0).err = some ReadError.EOF) (hfuel : 0 < fuel) :
    parseCsv fs filepath fuel = Run.panicked := by
  cases fuel with
  | zero => omega
  | succ f => simp [parseCsv, hopen, NewReader, readLoop, heof]

/-- C6 at the reader of an empty file. -/
theorem parseCsv_empty_file_witness :
    parseCsv (fun _ => some (fileReader [])) "songs.csv".toList 1 = Run.panicked :=
  parseCsv_empty_file _ _ (fileReader []) 1 rfl (by decide) (by decide)

/-- C7 as stated fails: with a grammar error at the second record `parseCsv`
returns a result, and the record that came with the error is its first data
row; on a file that cannot be opened the loop never ends. -/
theorem parseCsv_read_error_counterexample :
    parseCsv (fun _ => some (fileReader brokenFile)) "songs.csv".toList 4 =
      Run.done ([["a".toList], ["b".toList, "c".toList]], ["id".toList, "name".toList]) ∧
    ∀ fuel, parseCsv (fun _ => none) "songs.csv".toList fuel = Run.outOfFuel := by
  refine ⟨by decide, fun fuel => ?_⟩
  simp only [parseCsv, NewReader]
  rw [readLoop_no_eof _ (fun k => by simp) fuel 0 []]

/-- C7, amended. A read error other than end of file does not make `parseCsv`
fail: when the reads before end of file give the results `first :: rest`, each
with or without such an error, the record of every read, erroneous or not, is
kept, and `parseCsv` returns the record of `first` as the header and the
records of `rest` as the data rows. -/
theorem parseCsv_read_error_continues (fs : GoString → Option CsvReader) (filepath : GoString)
    (reader : CsvReader) (first : ReadResult) (rest : List ReadResult) (fuel : Nat)
    (hopen : fs filepath = some reader)
    (hread : ∀ k, k < (first :: rest).length →
      reader k = (first :: rest).getD k { record := [], err := none })
    (hne : ∀ r ∈ first :: rest, r.err ≠ some ReadError.EOF)
    (heof : (reader (first :: rest).length).err = some ReadError.EOF)
    (hfuel : (first :: rest).length < fuel) :
    parseCsv fs filepath fuel = Run.done (rest.map ReadResult.record, first.record) :=
  parseCsv_of_results fs filepath reader first rest fuel hopen hread hne heof hfuel

/-- C7, amended, at `brokenFile`. -/
theorem parseCsv_read_error_continues_witness :
    (∃ r ∈ brokenFile, r.err = some ReadError.other) ∧
    parseCsv (fun _ => some (fileReader brokenFile)) "songs.csv".toList 4 =
      Run.done ((brokenFile.tail).map ReadResult.record, ["id".toList, "name".toList]) :=
  ⟨by decide,
    parseCsv_read_error_continues _ "songs.csv".toList (fileReader brokenFile)
      (ReadResult.mk ["id".toList, "name".toList] none) brokenFile.tail 4 rfl
      (by decide) (by decide) (by decide) (by decide)⟩

/-! ## Theorems on the song store -/

section Store

variable {F : Type} (M : FloatOps F)

theorem scanRows_eq (rows : List (Row F)) (songs : List (Song F)) :
    scanRows M rows songs =
      songs ++ rows.map (fun row => (Scan M (selectStar row) (zeroSong M)).1) := by
  induction rows generalizing songs with
  | nil => simp [scanRows]
  | cons row rest ih => simp [scanRows, ih]

theorem any_id_iff (db : DB F) (song : Song F) :
    db.any (fun row => row.id == song.id) = true ↔ song.id ∈ db.map Row.id := by
  simp only [List.any_eq_true, beq_iff_eq, List.mem_map]

theorem execInsert_duplicate (db : DB F) (song : Song F) (h : song.id ∈ db.map Row.id) :
    execInsert M db song = (db, some (SqlError.uniqueConstraint song.id)) := by
  simp only [execInsert, (any_id_iff db song).mpr h, if_true]

theorem execInsert_fresh (db : DB F) (song : Song F) (h : song.id ∉ db.map Row.id) :
    execInsert M db song = (db ++ [insertRow M song], none) := by
  have : ¬ (db.any (fun row => row.id == song.id) = true) := fun hc => h ((any_id_iff db song).mp hc)
  simp only [execInsert, this, Bool.false_eq_true, if_false]

theorem insertRow_id (song : Song F) : (insertRow M song).id = song.id := rfl

theorem map_id_insertRow (songs : List (Song F)) :
    (songs.map (insertRow M)).map Row.id = songs.map Song.id := by
  rw [List.map_map]
  rfl

theorem insertLoop_spec (songs : List (Song F)) : ∀ (db : DB F) (log : List SqlError),
    ∃ added : List (Song F),
      (insertLoop M songs db log).1 = db ++ added.map (insertRow M) ∧
      ((db.map Row.id).Nodup → ((db ++ added.map (insertRow M)).map Row.id).Nodup) ∧
      (∀ r, r ∈ added ↔ ∃ pre post, songs = pre ++ r :: post ∧
        r.id ∉ db.map Row.id ∧ r.id ∉ pre.map Song.id) ∧
      (∀ s ∈ songs, s.id ∈ (db ++ added.map (insertRow M)).map Row.id) ∧
      (insertLoop M songs db log).2.length + added.length = log.length + songs.length := by
  induction songs with
  | nil =>
    intro db log
    refine ⟨[], by simp [insertLoop], by simp, ?_, by simp, by simp [insertLoop]⟩
    intro r
    simp
  | cons s rest ih =>
    intro db log
    by_cases hs : s.id ∈ db.map Row.id
    · obtain ⟨added, h1, h2, h3, h4, h5⟩ :=
        ih db (log ++ [SqlError.uniqueConstraint s.id])
      refine ⟨added, ?_, h2, ?_, ?_, ?_⟩
      · simp only [insertLoop, execInsert_duplicate M db s hs]; exact h1
      · intro r
        rw [h3 r]
        constructor
        · rintro ⟨pre, post, hrest, hdb, hpre⟩
          refine ⟨s :: pre, post, by rw [hrest]; rfl, hdb, ?_⟩
          simp only [List.map_cons, List.mem_cons, not_or]
          exact ⟨fun he => hdb (he ▸ hs), hpre⟩
        · rintro ⟨pre, post, heq, hdb, hpre⟩
          cases pre with
          | nil =>
            simp only [List.nil_append, List.cons.injEq] at heq
            exact absurd (heq.1 ▸ hs) hdb
          | cons x pre2 =>
            simp only [List.cons_append, List.cons.injEq] at heq
            simp only [List.map_cons, List.mem_cons, not_or] at hpre
            exact ⟨pre2, post, heq.2, hdb, hpre.2⟩
      · intro s2 hs2
        rcases List.mem_cons.mp hs2 with rfl | hs2
        · simp only [List.map_append, List.mem_append]; exact Or.inl hs
        · exact h4 s2 hs2
      · simp only [insertLoop, execInsert_duplicate M db s hs]
        simp only [List.length_append, List.length_singleton, List.length_cons,
          List.length_nil] at h5 ⊢
        omega
    · obtain ⟨added, h1, h2, h3, h4, h5⟩ := ih (db ++ [insertRow M s]) log
      have hids : (db ++ [insertRow M s]).map Row.id = db.map Row.id ++ [s.id] := by
        simp [insertRow_id]
      refine ⟨s :: added, ?_, ?_, ?_, ?_, ?_⟩
      · simp only [insertLoop, execInsert_fresh M db s hs]
        rw [h1, List.append_assoc, List.map_cons, List.singleton_append]
      · intro hnd
        have hnd2 : ((db ++ [insertRow M s]).map Row.id).Nodup := by
          rw [hids, List.nodup_append]
          refine ⟨hnd, by simp, ?_⟩
          intro a ha hb
          simp only [List.mem_singleton] at hb
          exact hs (hb ▸ ha)
        have := h2 hnd2
        rwa [List.append_assoc, List.singleton_append] at this
      · intro r
        rw [List.mem_cons, h3 r, hids]
        constructor
        · rintro (rfl | ⟨pre, post, hrest, hdb, hpre⟩)
          · exact ⟨[], rest, rfl, hs, by simp⟩
          · simp only [List.mem_append, List.mem_singleton, not_or] at hdb
            refine ⟨s :: pre, post, by rw [hrest]; rfl, hdb.1, ?_⟩
            simp only [List.map_cons, List.mem_cons, not_or]
            exact ⟨hdb.2, hpre⟩
        · rintro ⟨pre, post, heq, hdb, hpre⟩
          cases pre with
          | nil =>
            simp only [List.nil_append, List.cons.injEq] at heq
            exact Or.inl heq.1.symm
          | cons x pre2 =>
            simp only [List.cons_append, List.cons.injEq] at heq
            simp only [List.map_cons, List.mem_cons, not_or] at hpre
            refine Or.inr ⟨pre2, post, heq.2, ?_, hpre.2⟩
            simp only [List.mem_append, List.mem_singleton, not_or]
            exact ⟨hdb, heq.1 ▸ hpre.1⟩
      · intro s2 hs2
        rcases List.mem_cons.mp hs2 with rfl | hs2
        · simp [insertRow_id]
        · have := h4 s2 hs2
          rwa [List.append_assoc, List.singleton_append] at this
      · simp only [insertLoop, execInsert_fresh M db s hs]
        simp only [List.length_cons] at h5 ⊢
        omega

theorem selectLike_too_long (pattern : GoString) (db : DB F)
    (h : likePatternLimit < byteLen pattern) : selectLike pattern db = [] := by
  cases db with
  | nil => rfl
  | cons row rest => simp only [selectLike, sqliteLike, if_pos h]

theorem scan_insertRow (t : Song F)
    (hfloat : ∀ f ∈ [t.danceability, t.energy, t.loudness, t.speechiness, t.acousticness,
      t.instrumentalness, t.liveness, t.valence, t.tempo], M.store f = some f)
    (hint : ∀ i ∈ [t.key, t.mode, t.duration_ms, t.time_signature],
      -(2 : Int) ^ (intSize - 1) ≤ i ∧ i < (2 : Int) ^ (intSize - 1)) :
    (Scan M (selectStar (insertRow M t)) (zeroSong M)).1 = t := by
  cases t with
  | mk id name artists danceability energy key loudness mode speechiness acousticness
      instrumentalness liveness valence tempo duration_ms time_signature =>
    simp only [List.mem_cons, List.mem_singleton, List.not_mem_nil, or_false,
      forall_eq_or_imp, forall_eq] at hfloat hint
    obtain ⟨f1, f2, f3, f4, f5, f6, f7, f8, f9⟩ := hfloat
    obtain ⟨i1, i2, i3, i4⟩ := hint
    simp only [insertRow, selectStar, f1, f2, f3, f4, f5, f6, f7, f8, f9, realCell, Scan,
      scanTargets, List.length_cons, List.length_nil, ne_eq, not_true_eq_false, if_false,
      scanLoop, convertString, convertFloat64, convertInt, Option.map_some',
      Atoi_Itoa _ i1.1 i1.2, Atoi_Itoa _ i2.1 i2.2, Atoi_Itoa _ i3.1 i3.2,
      Atoi_Itoa _ i4.1 i4.2, zeroSong]

/-- C9, amended. For a track `t` whose float fields are values a `FLOAT`
column gives back unchanged (so no NaN, which is stored as NULL) and whose
integer fields are in the range of `int`: after `insertData(db, [t])` the
result of `getData` contains a record equal to `t` in every field exactly
when the store held no row with the id of `t` before, or `getData` returned
such a record already. -/
theorem getData_insertData (db : DB F) (t : Song F)
    (hfloat : ∀ f ∈ [t.danceability, t.energy, t.loudness, t.speechiness, t.acousticness,
      t.instrumentalness, t.liveness, t.valence, t.tempo], M.store f = some f)
    (hint : ∀ i ∈ [t.key, t.mode, t.duration_ms, t.time_signature],
      -(2 : Int) ^ (intSize - 1) ≤ i ∧ i < (2 : Int) ^ (intSize - 1)) :
    t ∈ getData M (insertData M db [t]).1 ↔ (t.id ∉ db.map Row.id ∨ t ∈ getData M db) := by
  by_cases h : t.id ∈ db.map Row.id
  · simp only [getData, insertData, insertLoop, execInsert_duplicate M db t h, h,
      not_true_eq_false, false_or]
  · simp only [getData, insertData, insertLoop, execInsert_fresh M db t h, h,
      not_false_eq_true, true_or, iff_true, scanRows_eq, List.nil_append, List.map_append,
      List.map_cons, List.map_nil, scan_insertRow M t hfloat hint, List.mem_append,
      List.mem_singleton, or_true]

/-- C10. Duplicate ids do not abort or roll back a batch. For a store with
one row per id, `insertData` leaves the stored rows as they are and appends
the rows of the tracks `added`; the ids stay distinct; a track is in `added`
exactly when it is the first track of the batch with its id and that id was
not stored before; afterwards the id of every track of the batch is stored;
every track is either added or reported by one printed error. -/
theorem insertData_duplicate_ids (db : DB F) (songs : List (Song F))
    (hkey : (db.map Row.id).Nodup) :
    ∃ added : List (Song F),
      (insertData M db songs).1 = db ++ added.map (insertRow M) ∧
      ((insertData M db songs).1.map Row.id).Nodup ∧
      (∀ r, r ∈ added ↔ ∃ pre post, songs = pre ++ r :: post ∧
        r.id ∉ db.map Row.id ∧ r.id ∉ pre.map Song.id) ∧
      (∀ s ∈ songs, s.id ∈ (insertData M db songs).1.map Row.id) ∧
      (insertData M db songs).2.length + added.length = songs.length := by
  obtain ⟨added, h1, h2, h3, h4, h5⟩ := insertLoop_spec M songs db []
  refine ⟨added, h1, ?_, h3, ?_, by simpa using h5⟩
  · rw [insertData, h1]; exact h2 hkey
  · rw [insertData, h1]; exact h4

end Store

/-- C9 as stated fails: the store holds a row with id 1, and after inserting
another track with id 1 `getData` does not contain that track. A track with a
NaN loudness is not given back either: its loudness and the fields after it
come back as zero values. -/
theorem getData_insertData_counterexample :
    sampleSong "1" "Rihanna" ∉
      getData tokenFloats (insertData tokenFloats drakeStore [sampleSong "1" "Rihanna"]).1 ∧
    getData tokenFloats (insertData tokenFloats [] [nanSong]).1 = [nanSongScanned] ∧
    nanSong ≠ nanSongScanned := by
  decide

/-- C9, amended, at `goodSong`: it is given back from the empty store and from
`drakeStore`. -/
theorem getData_insertData_witness :
    goodSong ∈ getData tokenFloats (insertData tokenFloats [] [goodSong]).1 ∧
    (goodSong ∈ getData tokenFloats (insertData tokenFloats drakeStore [goodSong]).1 ↔
      (goodSong.id ∉ drakeStore.map Row.id ∨ goodSong ∈ getData tokenFloats drakeStore)) :=
  ⟨(getData_insertData tokenFloats [] goodSong (by decide) (by decide)).mpr
      (Or.inl (by decide)),
    getData_insertData tokenFloats drakeStore goodSong (by decide) (by decide)⟩

/-- C10 at `drakeStore` and `duplicateBatch`: the ids 8 and 9 are added, each
with its first track, and two errors are printed. -/
theorem insertData_duplicate_ids_witness :
    insertData tokenFloats drakeStore duplicateBatch =
      (drakeStore ++
          [sampleSong "8" "Dua Lipa", sampleSong "9" "Migos"].map (insertRow tokenFloats),
        [SqlError.uniqueConstraint "1".toList, SqlError.uniqueConstraint "8".toList]) ∧
    ∃ added : List (Song GoString),
      (insertData tokenFloats drakeStore duplicateBatch).1 =
        drakeStore ++ added.map (insertRow tokenFloats) ∧
      ((insertData tokenFloats drakeStore duplicateBatch).1.map Row.id).Nodup ∧
      (∀ r, r ∈ added ↔ ∃ pre post, duplicateBatch = pre ++ r :: post ∧
        r.id ∉ drakeStore.map Row.id ∧ r.id ∉ pre.map Song.id) ∧
      (∀ s ∈ duplicateBatch,
        s.id ∈ (insertData tokenFloats drakeStore duplicateBatch).1.map Row.id) ∧
      (insertData tokenFloats drakeStore duplicateBatch).2.length + added.length =
        duplicateBatch.length :=
  ⟨by decide, insertData_duplicate_ids tokenFloats drakeStore duplicateBatch (by decide)⟩

end SpotifyTop2018
